import Mathlib

/-!
Shallow embedding of the health-QA pipeline from `src/app/agent.py` and
`src/app/main.py`, and verification of the specification's claims about it.

Modelling conventions:
* Python floats are modelled as exact rationals (`ℚ`).  The `statistics`
  module computes `mean`/`pstdev` with exact fraction arithmetic internally,
  so the rational model matches the source's arithmetic; the standard
  deviation, being a square root, is represented by its square (the
  population variance) together with the predicate `IsPStdev` characterising
  the true standard deviation, and comparisons against `2.5·σ` are carried
  out on squares (lemma `outlier_iff_sq` proves the equivalence).
* Python truthiness of optional strings (`None` and `""` falsy) is modelled
  by `pyOrStr`/`pyOrOpt`/`pyTruthy`.
* External collaborators (metrics store, embedder, vector index, chat model,
  conversation store) are parameters of the embedded functions; the
  retrieval node additionally returns an explicit trace of collaborator
  calls so that short-circuiting can be stated.
-/

namespace HealthQA

/-- Python `a or b` for an optional string with a plain-string fallback, as in
`(state.get("question") or "")`: `None` and `""` are falsy. -/
def pyOrStr : Option String → String → String
  | some s, b => if s = "" then b else s
  | none, b => b

/-- Python `a or b` where both operands are optional strings, as in
`payload.get("source") or payload.get("url")`: when `a` is falsy the result
is `b`, which may itself be `None`. -/
def pyOrOpt : Option String → Option String → Option String
  | some s, b => if s = "" then b else some s
  | none, b => b

/-- Python truthiness of an optional string: `None` and `""` are falsy. -/
def pyTruthy : Option String → Bool
  | some s => s ≠ ""
  | none => false

/-- Python `s.lower()` (the emergency phrases are ASCII, where Python's
`lower` agrees with `Char.toLower`). -/
def pyLower (s : String) : String := String.mk (s.data.map Char.toLower)

/-- Python `s.strip()`: drop leading and trailing whitespace. -/
def pyStrip (s : String) : String :=
  String.mk (((s.data.dropWhile Char.isWhitespace).reverse.dropWhile
    Char.isWhitespace).reverse)

/-! ## Metric points and `node_pull_metrics` (src/app/agent.py:89-181) -/

/-- A raw `value` field of a metric point as returned by the metrics store.
`num q` is a value that Python `float()` coerces to the finite float `q`
(modelled exactly as a rational); `malformed` is a value on which `float()`
raises (for example the string `"oops"`, `None`, or a dict). -/
inductive RawVal
  | num (q : ℚ)
  | malformed
deriving DecidableEq

/-- `_safe_float` (agent.py:89-93): `float(x)` wrapped in `try/except`,
returning `None` when coercion fails. -/
def safe_float : RawVal → Option ℚ
  | .num q => some q
  | .malformed => none

/-- A raw metric point from the metrics store, with the fields
`node_pull_metrics` reads. -/
structure RawPoint where
  kind : Option String
  ts : Option String
  value : RawVal
  unit : Option String
deriving DecidableEq

/-- A cleaned metric point as stored in the pipeline state by
`node_pull_metrics`. -/
structure CleanPoint where
  kind : Option String
  ts : Option String
  value : Option ℚ
  unit : Option String
deriving DecidableEq

/-- The per-point cleaning step of `node_pull_metrics` (agent.py:171-180):
each raw point is appended with its `value` passed through `_safe_float`. -/
def clean_point (p : RawPoint) : CleanPoint :=
  { kind := p.kind, ts := p.ts, value := safe_float p.value, unit := p.unit }

/-- `node_pull_metrics` (agent.py:153-181).  `data` is the response of the
`get_user_metrics` collaborator.  The guard returns an empty list when
`user_id` or either timeframe bound is falsy. -/
def node_pull_metrics (user_id tf_start tf_end : Option String)
    (data : List RawPoint) : List CleanPoint :=
  if ¬ pyTruthy user_id ∨ ¬ pyTruthy tf_start ∨ ¬ pyTruthy tf_end then []
  else data.map clean_point

/-! ## `_mean_sd` and `node_analyze` (src/app/agent.py:81-86, 184-208) -/

/-- Arithmetic mean of a list of rationals, as computed (exactly) by
`statistics.mean`. -/
def pmean (vals : List ℚ) : ℚ := vals.sum / vals.length

/-- Population variance (divisor = length), the square of
`statistics.pstdev`. -/
def pvariance (vals : List ℚ) : ℚ :=
  (vals.map (fun v => (v - pmean vals) ^ 2)).sum / vals.length

/-- `s` is the population standard deviation of `vals`: the nonnegative
square root of the population variance.  The source computes it as
`statistics.pstdev(values)`; since the square root of a rational need not be
rational, the development carries the variance and characterises the actual
standard deviation through this predicate. -/
def IsPStdev (vals : List ℚ) (s : ℚ) : Prop := 0 ≤ s ∧ s ^ 2 = pvariance vals

/-- `_mean_sd` (agent.py:81-86), with the standard deviation component
represented by its square (the population variance): `([] ↦ (None, None))`,
a singleton yields `(value, 0.0)`, otherwise `(mean, pstdev)` — here
`(mean, pstdev²)`. -/
def mean_sd_sq : List ℚ → Option ℚ × Option ℚ
  | [] => (none, none)
  | [v] => (some v, some 0)
  | v₁ :: v₂ :: rest => (some (pmean (v₁ :: v₂ :: rest)), some (pvariance (v₁ :: v₂ :: rest)))

/-- The outlier test `v < mu - 2.5*sd or v > mu + 2.5*sd` of `node_analyze`
(agent.py:203-204), stated on squares so that it is expressible in exact
rational arithmetic: since `sd ≥ 0`, `v` lies strictly outside
`[mu − 2.5·sd, mu + 2.5·sd]` iff `(v − mu)² > 6.25·sd²`, and `sd²` is the
population variance (lemma `outlier_iff_sq`). -/
def isOutlierSq (mu vr v : ℚ) : Bool := decide ((25 : ℚ) / 4 * vr < (v - mu) ^ 2)

/-- The per-kind flag-emission step of the `node_analyze` loop
(agent.py:199-206): when the standard deviation is positive and at least one
value is an outlier, the string
`"<kind>: <count> outlier(s) beyond ±2.5σ"` is produced.  The test
`sd and sd > 0` on the float `sd` is equivalent to `pstdev² > 0`. -/
def emitFlag (k : String) (vals : List ℚ) : Option String :=
  match mean_sd_sq vals with
  | (some mu, some vr) =>
    if 0 < vr then
      let outliers := vals.filter (isOutlierSq mu vr)
      if outliers.length ≠ 0 then
        some (k ++ ": " ++ toString outliers.length ++ " outlier(s) beyond ±2.5σ")
      else none
    else none
  | _ => none

/-- Append `v` to the group of key `k`, creating the group at the end when
absent: Python `dict.setdefault(k, []).append(v)` over an insertion-ordered
dict, represented as an association list. -/
def insertGroup (k : String) (v : ℚ) : List (String × List ℚ) → List (String × List ℚ)
  | [] => [(k, [v])]
  | (k', vs) :: rest =>
      if k' = k then (k', vs ++ [v]) :: rest
      else (k', vs) :: insertGroup k v rest

/-- One iteration of the `by_kind` grouping loop of `node_analyze`
(agent.py:190-195): points whose coerced value is `None` or whose `kind` is
falsy are skipped (`_safe_float` applied to an already-cleaned value is the
identity on floats and `None` on `None`). -/
def byKindStep (acc : List (String × List ℚ)) (p : CleanPoint) :
    List (String × List ℚ) :=
  match p.value, p.kind with
  | some v, some k => if k = "" then acc else insertGroup k v acc
  | _, _ => acc

/-- The `by_kind` grouping of `node_analyze` (agent.py:189-195). -/
def by_kind (points : List CleanPoint) : List (String × List ℚ) :=
  points.foldl byKindStep []

/-- The per-kind stats record `{"mean": mu, "stdev": sd, "n": len(vals)}`
(agent.py:201), with `stdev` represented by its square. -/
structure KindStat where
  mean : Option ℚ
  sdSq : Option ℚ
  n : ℕ
deriving DecidableEq

/-- `node_analyze` (agent.py:184-208): per-kind aggregates and outlier
flags, in group insertion order. -/
def node_analyze (points : List CleanPoint) :
    List (String × KindStat) × List String :=
  let groups := by_kind points
  (groups.map (fun g =>
      (g.1, { mean := (mean_sd_sq g.2).1, sdSq := (mean_sd_sq g.2).2, n := g.2.length })),
   groups.filterMap (fun g => emitFlag g.1 g.2))

/-! ## `node_retrieve` (src/app/agent.py:211-253) -/

/-- A Qdrant hit payload, with the keys `node_retrieve` reads (absent keys
are `none`). -/
structure Payload where
  text : Option String
  page_content : Option String
  id : Option String
  doc_id : Option String
  source : Option String
  url : Option String
  path : Option String
  title : Option String
  chunk : Option String
  chunk_id : Option String
deriving DecidableEq

/-- The payload with no keys, `{}`. -/
def emptyPayload : Payload :=
  ⟨none, none, none, none, none, none, none, none, none, none⟩

/-- A search hit returned by the vector-index collaborator. -/
structure Hit where
  payload : Option Payload
  score : Option ℚ
deriving DecidableEq

/-- The `metadata` dict built for each hit (agent.py:244-249). -/
structure RMeta where
  id : Option String
  source : Option String
  title : Option String
  chunk : Option String
deriving DecidableEq

/-- One entry of `relevant_chunks` (agent.py:250). -/
structure RChunk where
  text : String
  score : ℚ
  metadata : RMeta
deriving DecidableEq

/-- One entry of `citations` (agent.py:251). -/
structure Citation where
  id : Option String
  source : Option String
  score : ℚ
deriving DecidableEq

/-- `float(hit.score or 0.0)` (agent.py:250): a missing score becomes `0.0`
(a present score of `0.0` is falsy in Python, but the fallback is the same
value). -/
def effScore (h : Hit) : ℚ := h.score.getD 0

/-- `payload.get("text") or payload.get("page_content") or ""`
(agent.py:243). -/
def hitText (p : Payload) : String := pyOrStr p.text (pyOrStr p.page_content "")

/-- The metadata alias chain of agent.py:244-249. -/
def mkMeta (p : Payload) : RMeta :=
  { id := pyOrOpt p.id p.doc_id,
    source := pyOrOpt p.source (pyOrOpt p.url p.path),
    title := p.title,
    chunk := pyOrOpt p.chunk p.chunk_id }

/-- The `relevant_chunks` entry built from a hit (agent.py:242-250);
`hit.payload or {}` falls back to the empty payload. -/
def mkChunk (h : Hit) : RChunk :=
  let p := h.payload.getD emptyPayload
  { text := hitText p, score := effScore h, metadata := mkMeta p }

/-- The `citations` entry built from a hit (agent.py:251): the same `meta`
and score as the `relevant_chunks` entry of that hit. -/
def mkCite (h : Hit) : Citation :=
  let p := h.payload.getD emptyPayload
  let meta := mkMeta p
  { id := meta.id, source := meta.source, score := effScore h }

/-- Models the Python format `f"{x:.1f}"` (one decimal digit, round half
up; the exact rounding mode of float formatting is immaterial to every
claim, no claim constrains these digits). -/
def fmt1 (q : ℚ) : String :=
  let n : ℤ := round (q * 10)
  let sign := if n < 0 then "-" else ""
  sign ++ toString (n.natAbs / 10) ++ "." ++ toString (n.natAbs % 10)

/-- Python `"; ".join(...)`, and the join used by `_format_context`. -/
def pyJoin (sep : String) : List String → String
  | [] => ""
  | a :: rest => rest.foldl (fun acc x => acc ++ sep ++ x) a

/-- Lookup in the `stats` dict (modelled as an insertion-ordered
association list). -/
def lookupStat (stats : List (String × KindStat)) (k : String) : Option KindStat :=
  (stats.find? (fun g => g.1 == k)).map (fun g => g.2)

/-- The query-enrichment fragments of `node_retrieve` (agent.py:220-223):
`"<kind> mean <mean to 1 decimal>"` for each of the four well-known kinds
present in `stats` with a non-`None` mean. -/
def enrichFragments (stats : List (String × KindStat)) : List String :=
  ["hr", "hrv", "sleep", "steps"].filterMap (fun k =>
    match lookupStat stats k with
    | some st => st.mean.map (fun mu => k ++ " mean " ++ fmt1 mu)
    | none => none)

/-- A collaborator call made by `node_retrieve`, recorded so that
short-circuiting can be stated: `embed` is `emb.embed_query(enriched)`
(agent.py:228) and `search` is `client.search(..., limit=6, ...)`
(agent.py:230-237). -/
inductive RetrieveCall
  | embed (query : String)
  | search (top_k : ℕ)
deriving DecidableEq

/-- `node_retrieve` (agent.py:211-253).  `embedF` and `searchF` are the
embedding and vector-index collaborators; the second component of the
result is the trace of collaborator calls, in order. -/
def node_retrieve (question : Option String) (stats : List (String × KindStat))
    (embedF : String → List ℚ) (searchF : List ℚ → List Hit) :
    (List RChunk × List Citation) × List RetrieveCall :=
  let q := pyStrip (pyOrStr question "")
  if q = "" then (([], []), [])
  else
    let enrich := enrichFragments stats
    let enriched := if enrich = [] then q else q ++ " | " ++ pyJoin "; " enrich
    let vector := embedF enriched
    let results := searchF vector
    ((results.map mkChunk, results.map mkCite),
     [RetrieveCall.embed enriched, RetrieveCall.search 6])

/-! ## `node_safety` (src/app/agent.py:256-279) -/

/-- `EMERGENCY_SIGNS` (agent.py:256-263). -/
def EMERGENCY_SIGNS : List String :=
  ["crushing chest pain", "shortness of breath", "fainting", "stroke",
   "severe bleeding", "unconscious"]

/-- Python `needle in hay` on strings: substring containment. -/
def strContains (hay needle : String) : Bool := decide (needle.data <:+: hay.data)

/-- Python `s.startswith(pre)`. -/
def strStartsWith (s pre : String) : Bool := decide (pre.data <+: s.data)

/-- The urgent-care warning string (agent.py:273). -/
def urgentWarning : String :=
  "Possible emergency symptoms mentioned — advise urgent in-person care."

/-- The heart-rate review warning string (agent.py:277). -/
def hrWarning : String :=
  "Unusual heart rate pattern detected; seek medical review if persistent."

/-- `node_safety` (agent.py:266-279): lower-cases the question, checks the
emergency-phrase set by substring, and independently checks whether any
anomaly entry starts with `"hr:"`. -/
def node_safety (question : Option String) (anomalies : List String) : List String :=
  let q := pyLower (pyOrStr question "")
  (if EMERGENCY_SIGNS.any (fun k => strContains q k) then [urgentWarning] else []) ++
  (if anomalies.any (fun a => strStartsWith a "hr:") then [hrWarning] else [])

/-! ## `_format_context` (src/app/agent.py:96-108)

`_format_context` is called by `node_answer` on the `relevant_chunks` built
by `node_retrieve` (agent.py:305), so its input dicts have a string `text`,
a `metadata` dict carrying its four keys (hence truthy, even when every
value is `None`), and no `payload` key — the source's `payload` fallbacks
resolve against the empty dict, and `meta.get("url")` is absent from the
metadata built by `node_retrieve`. -/

/-- One block `f"[SOURCE: {src}]\n{text}\n"` (agent.py:100-103) for a chunk
as produced by `node_retrieve`:
`text = r.get("text") or r.get("payload", {}).get("text") or ""` reduces to
`pyOrStr (some r.text) ""`, and the source chain
`meta.get("source") or meta.get("url") or meta.get("id") or "unknown"`
reduces to `source or id or "unknown"`. -/
def mkPart (r : RChunk) : String :=
  let text := pyOrStr (some r.text) ""
  let src := pyOrStr r.metadata.source (pyOrStr r.metadata.id "unknown")
  "[SOURCE: " ++ src ++ "]\n" ++ text ++ "\n"

/-- The accumulation loop of `_format_context` (agent.py:97-107): blocks are
kept while the running character count `used` stays within `maxChars`; the
first block that would push `used` past the budget stops the loop
(Python `break`). -/
def contextPiecesGo (maxChars : ℕ) : List RChunk → ℕ → List String
  | [], _ => []
  | r :: rest, used =>
      let part := mkPart r
      if maxChars < used + part.length then []
      else part :: contextPiecesGo maxChars rest (used + part.length)

/-- `_format_context` (agent.py:96-108): the kept blocks joined by
`"\n".join(pieces)`.  The source's `max_chars` parameter defaults to `4000`
and `node_answer` calls it with the default. -/
def format_context (maxChars : ℕ) (chunks : List RChunk) : String :=
  pyJoin "\n" (contextPiecesGo maxChars chunks 0)

/-! ## `AgentState`, merge policy, and `node_parse_user`
(src/app/agent.py:22-49, 129-150)

`AgentState` annotates `metric_kinds`, `metrics`, `anomalies`,
`relevant_chunks`, `citations` and `safety_warnings` with `operator.add`
and `messages` with `add_messages`; the remaining fields overwrite.  A node
returns a partial update (absent keys leave the channel untouched), and
LangGraph merges each present key into the running state with that field's
reducer. -/

/-- A chat message; `role` is `"human"` or `"ai"`. -/
structure Msg where
  role : String
  content : String
deriving DecidableEq

/-- The pipeline state of `AgentState` (agent.py:22-49), with `stats`
modelled as an insertion-ordered association list. -/
structure AgentState where
  messages : List Msg
  user_id : Option String
  timeframe : Option (String × String)
  metric_kinds : List String
  question : Option String
  metrics : List CleanPoint
  stats : Option (List (String × KindStat))
  anomalies : List String
  relevant_chunks : List RChunk
  citations : List Citation
  safety_warnings : List String
  answer : Option String
deriving DecidableEq

/-- A node's partial state update: `none` means the key is absent from the
returned dict. -/
structure StateUpdate where
  messages : Option (List Msg) := none
  user_id : Option (Option String) := none
  timeframe : Option (Option (String × String)) := none
  metric_kinds : Option (List String) := none
  question : Option (Option String) := none
  metrics : Option (List CleanPoint) := none
  stats : Option (Option (List (String × KindStat))) := none
  anomalies : Option (List String) := none
  relevant_chunks : Option (List RChunk) := none
  citations : Option (List Citation) := none
  safety_warnings : Option (List String) := none
  answer : Option (Option String) := none

/-- The LangGraph merge of one node's partial update into the running
state: `operator.add`-annotated fields concatenate the update onto the
existing value, `add_messages` appends the new messages (the pipeline
attaches no ids, so no replacement occurs), the remaining fields overwrite
when present. -/
def applyUpdate (s : AgentState) (u : StateUpdate) : AgentState where
  messages := s.messages ++ u.messages.getD []
  user_id := u.user_id.getD s.user_id
  timeframe := u.timeframe.getD s.timeframe
  metric_kinds := s.metric_kinds ++ u.metric_kinds.getD []
  question := u.question.getD s.question
  metrics := s.metrics ++ u.metrics.getD []
  stats := u.stats.getD s.stats
  anomalies := s.anomalies ++ u.anomalies.getD []
  relevant_chunks := s.relevant_chunks ++ u.relevant_chunks.getD []
  citations := s.citations ++ u.citations.getD []
  safety_warnings := s.safety_warnings ++ u.safety_warnings.getD []
  answer := u.answer.getD s.answer

/-- The question-extraction scan of `node_parse_user` (agent.py:133-140):
the most recent human message, trimmed; `None` when there is none. -/
def latestHuman (ms : List Msg) : Option String :=
  (ms.reverse.find? (fun m => m.role == "human")).map (fun m => pyStrip m.content)

/-- `node_parse_user` (agent.py:129-150): the partial update it returns.
`state.get("metric_kinds") or []` is the existing list when nonempty and
`[]` otherwise. -/
def node_parse_user (s : AgentState) : StateUpdate :=
  { question := some (latestHuman s.messages),
    metric_kinds := some (if s.metric_kinds = [] then [] else s.metric_kinds),
    metrics := some [],
    anomalies := some [],
    relevant_chunks := some [],
    citations := some [],
    safety_warnings := some [] }

/-! ## The HTTP endpoints (src/app/main.py:93-188) -/

/-- The `initial_state` dict built by both `chat` and `chat_stream`
(main.py:106-116 and 144-154): history plus the new human message, the
caller's identity/timeframe/kinds, and all five accumulators empty. -/
def mkInitialState (history : List Msg) (message : String) (uid : String)
    (tf : String × String) (kinds : List String) : AgentState :=
  { messages := history ++ [⟨"human", message⟩],
    user_id := some uid,
    timeframe := some tf,
    metric_kinds := kinds,
    question := none,
    metrics := [],
    stats := none,
    anomalies := [],
    relevant_chunks := [],
    citations := [],
    safety_warnings := [],
    answer := none }

/-- One turn appended to the conversation store by `append_turn`. -/
structure Turn where
  user_id : String
  role : String
  content : String
deriving DecidableEq

/-- One update yielded by `GRAPH.astream(..., stream_mode="updates")`: the
node's name, the keys of its partial update, and the value of its
`"answer"` key when that value is a string (`None` otherwise). -/
structure NodeUpdate where
  name : String
  keys : List String
  answer : Option String
deriving DecidableEq

/-- One item of the stream consumed by `sse_gen`'s `async for` loop: either
a node update, or the point at which the graph run raises. -/
inductive StreamItem
  | upd (u : NodeUpdate)
  | exc (msg : String)
deriving DecidableEq

/-- A server-sent event emitted by `sse_gen` (main.py:156-186): a node
progress event, the terminal answer event, an error event, or the
`[DONE]` end-of-stream marker. -/
inductive SSEvent
  | node (name : String) (keys : List String)
  | final (answer : String)
  | error (message : String)
  | done
deriving DecidableEq

/-- The `final_answer` capture step (main.py:164-166): a present, nonempty
string answer replaces the accumulator. -/
def captureAnswer (fa : String) (u : NodeUpdate) : String :=
  match u.answer with
  | some a => if a = "" then fa else a
  | none => fa

/-- `final_answer` after folding the capture step over a list of updates. -/
def finalAnswer (updates : List NodeUpdate) (fa : String) : String :=
  updates.foldl captureAnswer fa

/-- The `async for` loop of `sse_gen` (main.py:159-173): emits one node
event per yielded update, accumulates `final_answer`, and stops at the
first exception.  Returns (events emitted, raised message if any,
`final_answer`). -/
def sseLoop : List StreamItem → String → List SSEvent × Option String × String
  | [], fa => ([], none, fa)
  | .upd u :: rest, fa =>
      let r := sseLoop rest (captureAnswer fa u)
      (SSEvent.node u.name u.keys :: r.1, r.2.1, r.2.2)
  | .exc m :: _, fa => ([], some m, fa)

/-- `sse_gen` (main.py:156-186): on normal completion the two conversation
turns are persisted and the final event is emitted; on an exception the
error event is emitted instead and nothing is persisted; the `finally`
block emits `[DONE]` in both cases.  Returns (events, conversation store
after the request). -/
def sse_gen (uid msg : String) (stream : List StreamItem) (store : List Turn) :
    List SSEvent × List Turn :=
  match sseLoop stream "" with
  | (evs, none, fa) =>
      (evs ++ [SSEvent.final fa, SSEvent.done],
       store ++ [⟨uid, "user", msg⟩, ⟨uid, "assistant", fa⟩])
  | (evs, some m, _) => (evs ++ [SSEvent.error m, SSEvent.done], store)

/-- The final state produced by a synchronous `GRAPH.invoke`, as read by
the `chat` endpoint. -/
structure GraphResult where
  answer : Option String
  citations : List Citation
deriving DecidableEq

/-- The `chat` endpoint body after building the initial state
(main.py:118-125): `run` is the outcome of `GRAPH.invoke` (an exception
propagates before any `append_turn` runs).  Returns (conversation store
after the request, response or propagated error). -/
def chat (store : List Turn) (uid msg : String)
    (run : Except String GraphResult) :
    List Turn × Except String (String × List Citation) :=
  match run with
  | .error e => (store, .error e)
  | .ok r =>
      let reply := pyStrip (pyOrStr r.answer "")
      (store ++ [⟨uid, "user", msg⟩, ⟨uid, "assistant", reply⟩],
       .ok (reply, r.citations))

/-! ## Claims -/

/-- A pre-run state carrying leftover accumulator values, to probe the
claim that the first stage clears them. -/
def leakState : AgentState :=
  { messages := [⟨"human", "how did I sleep?"⟩],
    user_id := some "u1",
    timeframe := some ("2024-01-01", "2024-01-08"),
    metric_kinds := ["hr"],
    question := none,
    metrics := [⟨some "hr", some "t0", some 60, some "bpm"⟩],
    stats := none,
    anomalies := ["hr: 1 outlier(s) beyond ±2.5σ"],
    relevant_chunks := [],
    citations := [],
    safety_warnings := ["stale warning"],
    answer := none }

/-- C1, counterexample: `node_parse_user` returns `[]` for the accumulator
fields, but those fields merge by `operator.add` (list concatenation), so
the empty update is a no-op and leftover values survive the first stage:
on a state with a leftover metric point, a leftover anomaly and a leftover
safety warning, all three are still present after the Question Extractor's
update is merged. -/
theorem C1_counterexample :
    (applyUpdate leakState (node_parse_user leakState)).metrics =
      [⟨some "hr", some "t0", some 60, some "bpm"⟩] ∧
    (applyUpdate leakState (node_parse_user leakState)).anomalies =
      ["hr: 1 outlier(s) beyond ±2.5σ"] ∧
    (applyUpdate leakState (node_parse_user leakState)).safety_warnings =
      ["stale warning"] := by
  refine ⟨rfl, rfl, rfl⟩

/-- C1, amended: under the `operator.add` merge policy the Question
Extractor's empty-list updates leave every accumulator exactly as it was,
so the five accumulators are empty after the first stage precisely because
both endpoints construct the per-request initial state with empty
accumulators (main.py:106-116, 144-154) — not because the first stage
clears leftovers. -/
theorem C1_accumulators :
    (∀ s : AgentState,
      (applyUpdate s (node_parse_user s)).metrics = s.metrics ∧
      (applyUpdate s (node_parse_user s)).anomalies = s.anomalies ∧
      (applyUpdate s (node_parse_user s)).relevant_chunks = s.relevant_chunks ∧
      (applyUpdate s (node_parse_user s)).citations = s.citations ∧
      (applyUpdate s (node_parse_user s)).safety_warnings = s.safety_warnings) ∧
    (∀ (history : List Msg) (message uid : String) (tf : String × String)
        (kinds : List String),
      (applyUpdate (mkInitialState history message uid tf kinds)
        (node_parse_user (mkInitialState history message uid tf kinds))).metrics = [] ∧
      (applyUpdate (mkInitialState history message uid tf kinds)
        (node_parse_user (mkInitialState history message uid tf kinds))).anomalies = [] ∧
      (applyUpdate (mkInitialState history message uid tf kinds)
        (node_parse_user (mkInitialState history message uid tf kinds))).relevant_chunks = [] ∧
      (applyUpdate (mkInitialState history message uid tf kinds)
        (node_parse_user (mkInitialState history message uid tf kinds))).citations = [] ∧
      (applyUpdate (mkInitialState history message uid tf kinds)
        (node_parse_user (mkInitialState history message uid tf kinds))).safety_warnings = []) := by
  constructor
  · intro s
    refine ⟨?_, ?_, ?_, ?_, ?_⟩ <;> simp [applyUpdate, node_parse_user]
  · intro history message uid tf kinds
    refine ⟨?_, ?_, ?_, ?_, ?_⟩ <;> simp [applyUpdate, node_parse_user, mkInitialState]

/-- C2, counterexample: a raw point whose `value` fails float coercion is
not dropped by `node_pull_metrics`; it enters the state with `value = None`
(the cleaned list has the same length as the raw list). -/
theorem C2_counterexample :
    node_pull_metrics (some "u1") (some "2024-01-01") (some "2024-01-08")
        [⟨some "hr", some "t0", RawVal.malformed, some "bpm"⟩] =
      [⟨some "hr", some "t0", none, some "bpm"⟩] ∧
    (⟨some "hr", some "t0", none, some "bpm"⟩ : CleanPoint).value = none := by
  refine ⟨?_, rfl⟩
  simp [node_pull_metrics, pyTruthy, clean_point, safe_float]

/-- C2, amended: when the user/timeframe guard passes, the Metrics Fetcher
keeps every fetched point, replacing its `value` by the result of float
coercion — `None` when coercion fails — and the pipeline does not abort;
points whose coerced value is `None` are instead ignored later, by the
Metrics Analyzer's grouping. -/
theorem C2_coercion :
    (∀ (uid ts te : Option String) (data : List RawPoint),
      pyTruthy uid = true → pyTruthy ts = true → pyTruthy te = true →
      node_pull_metrics uid ts te data = data.map clean_point) ∧
    (∀ p : RawPoint, (clean_point p).value = safe_float p.value) ∧
    (∀ (pts₁ pts₂ : List CleanPoint) (c : CleanPoint), c.value = none →
      by_kind (pts₁ ++ c :: pts₂) = by_kind (pts₁ ++ pts₂)) := by
  refine ⟨?_, fun _ => rfl, ?_⟩
  · intro uid ts te data h1 h2 h3
    simp [node_pull_metrics, h1, h2, h3]
  · intro pts₁ pts₂ c hc
    have hstep : ∀ acc : List (String × List ℚ), byKindStep acc c = acc := by
      intro acc
      unfold byKindStep
      rw [hc]
    simp [by_kind, List.foldl_append, List.foldl_cons, hstep]

/-- C2, witness for the amended theorem. -/
theorem C2_coercion_witness :
    node_pull_metrics (some "u1") (some "2024-01-01") (some "2024-01-08")
        [⟨some "hr", some "t0", RawVal.num 60, some "bpm"⟩] =
      [⟨some "hr", some "t0", RawVal.num 60, some "bpm"⟩].map clean_point ∧
    by_kind ([] ++ (⟨some "hr", some "t0", none, some "bpm"⟩ : CleanPoint) :: []) =
      by_kind ([] ++ []) := by
  exact ⟨C2_coercion.1 (some "u1") (some "2024-01-01") (some "2024-01-08") _ rfl rfl rfl,
    C2_coercion.2.2 [] [] _ rfl⟩

/-- C6: the Guidance Retriever produces `relevant_chunks` and `citations`
of equal length, and for every valid index the citation at that index
carries the same `id`, `source` and `score` as the chunk at that index
(both rows are built from the same retrieval hit). -/
theorem C6_citations_parallel (question : Option String)
    (stats : List (String × KindStat))
    (embedF : String → List ℚ) (searchF : List ℚ → List Hit) :
    ((node_retrieve question stats embedF searchF).1.1).length =
      ((node_retrieve question stats embedF searchF).1.2).length ∧
    ∀ i : ℕ,
      (((node_retrieve question stats embedF searchF).1.2).get? i).map Citation.id =
        (((node_retrieve question stats embedF searchF).1.1).get? i).map
          (fun c => c.metadata.id) ∧
      (((node_retrieve question stats embedF searchF).1.2).get? i).map Citation.source =
        (((node_retrieve question stats embedF searchF).1.1).get? i).map
          (fun c => c.metadata.source) ∧
      (((node_retrieve question stats embedF searchF).1.2).get? i).map Citation.score =
        (((node_retrieve question stats embedF searchF).1.1).get? i).map RChunk.score := by
  unfold node_retrieve
  by_cases hq : pyStrip (pyOrStr question "") = ""
  · simp [hq]
  · simp only [if_neg hq]
    refine ⟨by simp, ?_⟩
    intro i
    simp only [List.get?_eq_getElem?, List.getElem?_map, Option.map_map]
    exact ⟨rfl, rfl, rfl⟩

/-- C7: when the question is empty, unset, or whitespace-only, the
Guidance Retriever returns empty `relevant_chunks` and `citations` and its
collaborator-call trace is empty — neither the embedder nor the vector
index is invoked. -/
theorem C7_empty_question_short_circuit (question : Option String)
    (stats : List (String × KindStat))
    (embedF : String → List ℚ) (searchF : List ℚ → List Hit)
    (h : pyStrip (pyOrStr question "") = "") :
    node_retrieve question stats embedF searchF = (([], []), []) := by
  simp [node_retrieve, h]

/-- C7, witness: a whitespace-only question short-circuits. -/
theorem C7_empty_question_short_circuit_witness :
    node_retrieve (some "   ") [] (fun _ => [1]) (fun _ => []) = (([], []), []) :=
  C7_empty_question_short_circuit (some "   ") [] (fun _ => [1]) (fun _ => [])
    (by decide)

/-- C9: the Safety Screener emits the urgent-care warning iff some phrase
of the fixed emergency set occurs as a substring of the lower-cased
question, and independently emits the seek-medical-review warning iff some
anomaly entry starts with `"hr:"`; with no anomalies there is no
heart-rate warning, and every emitted warning is one of the two fixed
strings (so zero, one, or two warnings are possible). -/
theorem C9_safety_warnings (question : Option String) (anomalies : List String) :
    (urgentWarning ∈ node_safety question anomalies ↔
      ∃ k ∈ EMERGENCY_SIGNS, k.data <:+: (pyLower (pyOrStr question "")).data) ∧
    (hrWarning ∈ node_safety question anomalies ↔
      ∃ a ∈ anomalies, ("hr:" : String).data <+: a.data) ∧
    (anomalies = [] → hrWarning ∉ node_safety question anomalies) ∧
    (∀ w ∈ node_safety question anomalies, w = urgentWarning ∨ w = hrWarning) := by
  have hne : urgentWarning ≠ hrWarning := by decide
  have hAiff :
      (EMERGENCY_SIGNS.any (fun k => strContains (pyLower (pyOrStr question "")) k)) = true ↔
        ∃ k ∈ EMERGENCY_SIGNS, k.data <:+: (pyLower (pyOrStr question "")).data := by
    simp [List.any_eq_true, strContains]
  have hBiff : (anomalies.any (fun a => strStartsWith a "hr:")) = true ↔
      ∃ a ∈ anomalies, ("hr:" : String).data <+: a.data := by
    simp [List.any_eq_true, strStartsWith]
  refine ⟨?_, ?_, ?_, ?_⟩
  · rw [← hAiff]
    by_cases hA :
        (EMERGENCY_SIGNS.any (fun k => strContains (pyLower (pyOrStr question "")) k)) = true <;>
      by_cases hB : (anomalies.any (fun a => strStartsWith a "hr:")) = true <;>
        simp [node_safety, hA, hB, hne]
  · rw [← hBiff]
    by_cases hA :
        (EMERGENCY_SIGNS.any (fun k => strContains (pyLower (pyOrStr question "")) k)) = true <;>
      by_cases hB : (anomalies.any (fun a => strStartsWith a "hr:")) = true <;>
        simp [node_safety, hA, hB, hne, hne.symm]
  · intro han
    subst han
    by_cases hA :
        (EMERGENCY_SIGNS.any (fun k => strContains (pyLower (pyOrStr question "")) k)) = true <;>
      simp [node_safety, hA, hne.symm]
  · intro w hw
    by_cases hA :
        (EMERGENCY_SIGNS.any (fun k => strContains (pyLower (pyOrStr question "")) k)) = true <;>
      by_cases hB : (anomalies.any (fun a => strStartsWith a "hr:")) = true <;>
        simp [node_safety, hA, hB] at hw <;> tauto

/-- C9, witness: a question containing "unconscious" with no anomalies
produces the urgent-care warning and no heart-rate warning. -/
theorem C9_safety_warnings_witness :
    urgentWarning ∈ node_safety (some "My friend is UNCONSCIOUS, what now?") [] ∧
    hrWarning ∉ node_safety (some "My friend is UNCONSCIOUS, what now?") [] := by
  refine ⟨(C9_safety_warnings (some "My friend is UNCONSCIOUS, what now?") []).1.mpr ?_,
    (C9_safety_warnings (some "My friend is UNCONSCIOUS, what now?") []).2.2.1 rfl⟩
  refine ⟨"unconscious", by decide, ?_⟩
  decide

/-- On an exception-free stream, the `sse_gen` loop emits one node event
per update, in order, raises nothing, and accumulates `final_answer`. -/
lemma sseLoop_ok (updates : List NodeUpdate) (fa : String) :
    sseLoop (updates.map StreamItem.upd) fa =
      (updates.map (fun u => SSEvent.node u.name u.keys), none, finalAnswer updates fa) := by
  induction updates generalizing fa with
  | nil => rfl
  | cons u rest ih => simp [sseLoop, ih, finalAnswer, List.foldl_cons]

/-- On a stream whose first exception follows the updates `pre`, the loop
emits exactly the node events of `pre` and then stops with the raised
message. -/
lemma sseLoop_exc (pre : List NodeUpdate) (m : String) (rest : List StreamItem)
    (fa : String) :
    sseLoop (pre.map StreamItem.upd ++ StreamItem.exc m :: rest) fa =
      (pre.map (fun u => SSEvent.node u.name u.keys), some m, finalAnswer pre fa) := by
  induction pre generalizing fa with
  | nil => rfl
  | cons u t ih => simp [sseLoop, ih, finalAnswer, List.foldl_cons]

/-- C8: the streaming endpoint emits one progress event per completed
stage, in stream order, then the terminal event carrying the captured
final answer, then the end-of-stream marker; when the run raises after a
prefix of stages, the error event carrying the exception's message takes
the place of the remaining progress events and the end-of-stream marker is
still last; in every case the last event is the end-of-stream marker. -/
theorem C8_stream_protocol (uid msg : String) (store : List Turn) :
    (∀ updates : List NodeUpdate,
      (sse_gen uid msg (updates.map StreamItem.upd) store).1 =
        updates.map (fun u => SSEvent.node u.name u.keys) ++
          [SSEvent.final (finalAnswer updates ""), SSEvent.done]) ∧
    (∀ (pre : List NodeUpdate) (m : String) (rest : List StreamItem),
      (sse_gen uid msg (pre.map StreamItem.upd ++ StreamItem.exc m :: rest) store).1 =
        pre.map (fun u => SSEvent.node u.name u.keys) ++
          [SSEvent.error m, SSEvent.done]) ∧
    (∀ stream : List StreamItem,
      ((sse_gen uid msg stream store).1).getLast? = some SSEvent.done) := by
  refine ⟨?_, ?_, ?_⟩
  · intro updates
    simp [sse_gen, sseLoop_ok]
  · intro pre m rest
    simp [sse_gen, sseLoop_exc]
  · intro stream
    unfold sse_gen
    rcases h : sseLoop stream "" with ⟨evs, err, fa⟩
    rcases err with _ | m <;>
      simp [List.getLast?_append]

/-- C10: in both chat endpoints the two conversation turns are appended
only after the graph run completes every stage: a synchronous run that
propagates an error leaves the store unchanged, a completed synchronous
run appends exactly the user turn then the assistant turn, and likewise
for the streaming endpoint — a mid-run exception persists nothing, normal
completion persists exactly the two turns. -/
theorem C10_persist_after_completion (uid msg : String) (store : List Turn) :
    (∀ e : String, (chat store uid msg (Except.error e)).1 = store) ∧
    (∀ r : GraphResult, (chat store uid msg (Except.ok r)).1 =
      store ++ [⟨uid, "user", msg⟩, ⟨uid, "assistant", pyStrip (pyOrStr r.answer "")⟩]) ∧
    (∀ (pre : List NodeUpdate) (m : String) (rest : List StreamItem),
      (sse_gen uid msg (pre.map StreamItem.upd ++ StreamItem.exc m :: rest) store).2 =
        store) ∧
    (∀ updates : List NodeUpdate,
      (sse_gen uid msg (updates.map StreamItem.upd) store).2 =
        store ++ [⟨uid, "user", msg⟩, ⟨uid, "assistant", finalAnswer updates ""⟩]) := by
  refine ⟨fun e => rfl, fun r => rfl, ?_, ?_⟩
  · intro pre m rest
    simp [sse_gen, sseLoop_exc]
  · intro updates
    simp [sse_gen, sseLoop_ok]

lemma pmean_singleton (v : ℚ) : pmean [v] = v := by
  simp [pmean]

lemma pvariance_singleton (v : ℚ) : pvariance [v] = 0 := by
  simp [pvariance, pmean_singleton]

/-- On a nonempty list, `_mean_sd` returns the arithmetic mean and the
population standard deviation (here: its square, the population
variance); the singleton short-circuit `(float(values[0]), 0.0)` agrees
with the general formula. -/
lemma mean_sd_sq_eq (vals : List ℚ) (h : vals ≠ []) :
    mean_sd_sq vals = (some (pmean vals), some (pvariance vals)) := by
  match vals with
  | [] => exact absurd rfl h
  | [v] => simp [mean_sd_sq, pmean_singleton, pvariance_singleton]
  | v₁ :: v₂ :: rest => rfl

/-- The squared outlier test agrees with the source's interval test: for
`s ≥ 0`, `(v − mu)² > 6.25·s²` iff `v` lies strictly outside
`[mu − 2.5·s, mu + 2.5·s]`. -/
lemma outlier_iff_sq (mu s v : ℚ) (hs : 0 ≤ s) :
    isOutlierSq mu (s ^ 2) v = true ↔
      v < mu - 5 / 2 * s ∨ mu + 5 / 2 * s < v := by
  unfold isOutlierSq
  rw [decide_eq_true_iff]
  constructor
  · intro h
    by_contra hcon
    push_neg at hcon
    obtain ⟨h1, h2⟩ := hcon
    nlinarith
  · rintro (h | h) <;> nlinarith

lemma insertGroup_nonempty (k : String) (v : ℚ) (acc : List (String × List ℚ))
    (hacc : ∀ g ∈ acc, g.2 ≠ []) : ∀ g ∈ insertGroup k v acc, g.2 ≠ [] := by
  induction acc with
  | nil =>
      intro g hg
      simp only [insertGroup, List.mem_singleton] at hg
      subst hg
      simp
  | cons a t ih =>
      intro g hg
      rcases a with ⟨k', vs⟩
      simp only [insertGroup] at hg
      split_ifs at hg with hk
      · rcases List.mem_cons.mp hg with rfl | hmem
        · simp
        · exact hacc g (List.mem_cons_of_mem _ hmem)
      · rcases List.mem_cons.mp hg with rfl | hmem
        · exact hacc (k', vs) (List.mem_cons_self _ _)
        · exact ih (fun g' hg' => hacc g' (List.mem_cons_of_mem _ hg')) g hmem

lemma byKindStep_nonempty (acc : List (String × List ℚ)) (p : CleanPoint)
    (hacc : ∀ g ∈ acc, g.2 ≠ []) : ∀ g ∈ byKindStep acc p, g.2 ≠ [] := by
  rcases p with ⟨pk, pt, pv, pu⟩
  rcases pv with _ | v <;> rcases pk with _ | k <;>
    simp only [byKindStep] <;> try exact hacc
  split_ifs with hk
  · exact hacc
  · exact insertGroup_nonempty k v acc hacc

/-- Every group produced by the `by_kind` loop holds at least one value. -/
lemma by_kind_groups_nonempty (pts : List CleanPoint) :
    ∀ g ∈ by_kind pts, g.2 ≠ [] := by
  suffices h : ∀ acc : List (String × List ℚ), (∀ g ∈ acc, g.2 ≠ []) →
      ∀ g ∈ pts.foldl byKindStep acc, g.2 ≠ [] by
    exact h [] (by simp)
  induction pts with
  | nil => intro acc hacc; simpa using hacc
  | cons p t ih =>
      intro acc hacc
      simp only [List.foldl_cons]
      exact ih (byKindStep acc p) (byKindStep_nonempty acc p hacc)

/-- C4: the Metrics Analyzer computes the arithmetic mean and the
population standard deviation — divisor the count, so `[10, 20]` yields
mean `15` and standard deviation `5.0` (not the sample value `√50 ≈
7.07`); a one-point group yields standard deviation exactly `0.0`; and
every kind present in `stats` comes from a group with at least one point
(an empty group yields no entry). -/
theorem C4_population_stats :
    (∀ vals : List ℚ, vals ≠ [] → (mean_sd_sq vals).1 = some (pmean vals)) ∧
    (∀ (vals : List ℚ) (s : ℚ), vals ≠ [] → IsPStdev vals s →
      (mean_sd_sq vals).2 = some (s ^ 2)) ∧
    (mean_sd_sq [(10 : ℚ), 20] = (some 15, some 25) ∧ IsPStdev [(10 : ℚ), 20] 5) ∧
    (∀ v : ℚ, mean_sd_sq [v] = (some v, some 0) ∧ IsPStdev [v] 0) ∧
    (∀ (pts : List CleanPoint) (k : String) (st : KindStat),
      (k, st) ∈ (node_analyze pts).1 → 0 < st.n) := by
  refine ⟨?_, ?_, ?_, ?_, ?_⟩
  · intro vals h
    rw [mean_sd_sq_eq vals h]
  · intro vals s h hs
    rw [mean_sd_sq_eq vals h, hs.2]
  · constructor
    · rw [mean_sd_sq_eq [(10 : ℚ), 20] (by simp)]
      norm_num [pmean, pvariance]
    · refine ⟨by norm_num, ?_⟩
      norm_num [pmean, pvariance]
  · intro v
    refine ⟨rfl, le_refl 0, ?_⟩
    simp [pvariance_singleton]
  · intro pts k st hmem
    unfold node_analyze at hmem
    simp only [List.mem_map] at hmem
    obtain ⟨g, hg, heq⟩ := hmem
    have hne := by_kind_groups_nonempty pts g hg
    have : st.n = g.2.length := by
      have := congrArg Prod.snd heq
      simp at this
      rw [← this]
    rw [this]
    exact List.length_pos.mpr hne

/-- C4, witness. -/
theorem C4_population_stats_witness :
    (mean_sd_sq [(10 : ℚ), 20]).1 = some (pmean [(10 : ℚ), 20]) :=
  C4_population_stats.1 [(10 : ℚ), 20] (by simp)

/-- The emission step of a nonempty group, as one conditional. -/
lemma emitFlag_char (k : String) (vals : List ℚ) (h : vals ≠ []) :
    emitFlag k vals =
      if 0 < pvariance vals ∧
          (vals.filter (isOutlierSq (pmean vals) (pvariance vals))).length ≠ 0 then
        some (k ++ ": " ++
          toString (vals.filter (isOutlierSq (pmean vals) (pvariance vals))).length ++
          " outlier(s) beyond ±2.5σ")
      else none := by
  unfold emitFlag
  rw [mean_sd_sq_eq vals h]
  by_cases h1 : 0 < pvariance vals <;>
    by_cases h2 :
      (vals.filter (isOutlierSq (pmean vals) (pvariance vals))).length ≠ 0 <;>
    simp [h1, h2]

/-- C5: for a kind's group of values with population standard deviation
`s`, the per-kind emission step of the Metrics Analyzer produces a flag
iff `s > 0` and some value lies strictly outside
`[mean − 2.5·s, mean + 2.5·s]` (boundary values do not trigger it, and no
flag is ever produced when `s = 0`), and any produced flag is exactly the
string `"<kind>: <outlier count> outlier(s) beyond ±2.5σ"`.
`node_analyze`'s anomaly list is the `filterMap` of this emission step
over the groups. -/
theorem C5_outlier_policy (k : String) (vals : List ℚ) (s : ℚ)
    (hsd : IsPStdev vals s) :
    ((emitFlag k vals).isSome = true ↔
      0 < s ∧ ∃ v ∈ vals,
        v < pmean vals - 5 / 2 * s ∨ pmean vals + 5 / 2 * s < v) ∧
    (∀ f, emitFlag k vals = some f →
      f = k ++ ": " ++
        toString (vals.filter (isOutlierSq (pmean vals) (pvariance vals))).length ++
        " outlier(s) beyond ±2.5σ") ∧
    (∀ pts : List CleanPoint,
      (node_analyze pts).2 = (by_kind pts).filterMap (fun g => emitFlag g.1 g.2)) := by
  obtain ⟨hs0, hsq⟩ := hsd
  by_cases h : vals = []
  · subst h
    have hvar : pvariance ([] : List ℚ) = 0 := by simp [pvariance]
    have hs : s = 0 := by
      have h2 : s ^ 2 = 0 := by rw [hsq, hvar]
      exact sq_eq_zero_iff.mp h2
    subst hs
    refine ⟨?_, ?_, fun pts => rfl⟩
    · simp [emitFlag, mean_sd_sq]
    · intro f hf
      simp [emitFlag, mean_sd_sq] at hf
  · have hpos_iff : 0 < s ↔ 0 < pvariance vals := by
      rw [← hsq]
      constructor
      · intro hp
        exact pow_pos hp 2
      · intro hp
        rcases lt_or_eq_of_le hs0 with h' | h'
        · exact h'
        · exfalso
          rw [← h'] at hp
          simp at hp
    have hout : ∀ v, isOutlierSq (pmean vals) (pvariance vals) v = true ↔
        (v < pmean vals - 5 / 2 * s ∨ pmean vals + 5 / 2 * s < v) := by
      intro v
      rw [← hsq]
      exact outlier_iff_sq (pmean vals) s v hs0
    have hfilter :
        (vals.filter (isOutlierSq (pmean vals) (pvariance vals))).length ≠ 0 ↔
          ∃ v ∈ vals, isOutlierSq (pmean vals) (pvariance vals) v = true := by
      rw [Ne, List.length_eq_zero, List.filter_eq_nil_iff]
      push_neg
      simp
    rw [emitFlag_char k vals h]
    refine ⟨?_, ?_, fun pts => rfl⟩
    · by_cases hc : 0 < pvariance vals ∧
          (vals.filter (isOutlierSq (pmean vals) (pvariance vals))).length ≠ 0
      · simp only [if_pos hc]
        simp only [Option.isSome_some, true_iff]
        refine ⟨hpos_iff.mpr hc.1, ?_⟩
        obtain ⟨v, hv, hvout⟩ := hfilter.mp hc.2
        exact ⟨v, hv, (hout v).mp hvout⟩
      · simp only [if_neg hc]
        simp only [Option.isSome_none, Bool.false_eq_true, false_iff]
        intro ⟨hspos, v, hv, hvout⟩
        exact hc ⟨hpos_iff.mp hspos, hfilter.mpr ⟨v, hv, (hout v).mpr hvout⟩⟩
    · intro f hf
      split_ifs at hf with hc
      exact (Option.some_inj.mp hf).symm

/-- C5, witness: nine zeros and one `10` have mean `1`, population
standard deviation `3`, and the value `10` lies beyond `1 + 2.5·3 = 8.5`,
so the flag fires. -/
theorem C5_outlier_policy_witness :
    (emitFlag "hr" [0, 0, 0, 0, 0, 0, 0, 0, 0, 10]).isSome = true ↔
      0 < (3 : ℚ) ∧ ∃ v ∈ ([0, 0, 0, 0, 0, 0, 0, 0, 0, 10] : List ℚ),
        v < pmean [0, 0, 0, 0, 0, 0, 0, 0, 0, 10] - 5 / 2 * 3 ∨
          pmean [0, 0, 0, 0, 0, 0, 0, 0, 0, 10] + 5 / 2 * 3 < v :=
  (C5_outlier_policy "hr" [0, 0, 0, 0, 0, 0, 0, 0, 0, 10] 3
    ⟨by norm_num, by norm_num [pvariance, pmean]⟩).1

lemma pyOrStr_some_empty (s : String) : pyOrStr (some s) "" = s := by
  show (if s = "" then ("" : String) else s) = s
  split_ifs with h
  · exact h.symm
  · rfl

lemma pyJoin_foldl_length (sep : String) (t : List String) :
    ∀ acc : String, (t.foldl (fun acc x => acc ++ sep ++ x) acc).length =
      acc.length + (t.map String.length).sum + sep.length * t.length := by
  induction t with
  | nil => intro acc; simp
  | cons x t ih =>
      intro acc
      simp only [List.foldl_cons, ih, String.length_append, List.map_cons,
        List.sum_cons, List.length_cons]
      ring

/-- The length of a Python join: the summed part lengths plus one
separator between consecutive parts. -/
lemma pyJoin_length (sep : String) (l : List String) :
    (pyJoin sep l).length = (l.map String.length).sum + sep.length * (l.length - 1) := by
  cases l with
  | nil => simp [pyJoin]
  | cons a t =>
      simp only [pyJoin, pyJoin_foldl_length, List.map_cons, List.sum_cons,
        List.length_cons, Nat.add_sub_cancel]

/-- The `used` counter of `_format_context` bounds the summed length of
the kept blocks (the join's separators are not counted by `used`). -/
lemma contextPiecesGo_total (m : ℕ) (chunks : List RChunk) :
    ∀ used : ℕ,
      used + ((contextPiecesGo m chunks used).map String.length).sum ≤ max m used := by
  induction chunks with
  | nil => intro used; simp [contextPiecesGo, le_max_right]
  | cons r t ih =>
      intro used
      simp only [contextPiecesGo]
      split_ifs with h
      · simp [le_max_right]
      · push_neg at h
        have h2 := ih (used + (mkPart r).length)
        rw [max_eq_left h] at h2
        have h3 : m ≤ max m used := le_max_left m used
        simp only [List.map_cons, List.sum_cons]
        omega

/-- The kept blocks are the blocks of a prefix of the chunk list: whole
trailing chunks are dropped, no block is truncated. -/
lemma contextPiecesGo_take (m : ℕ) (chunks : List RChunk) :
    ∀ used : ℕ, ∃ k, contextPiecesGo m chunks used = (chunks.take k).map mkPart := by
  induction chunks with
  | nil => intro used; exact ⟨0, rfl⟩
  | cons r t ih =>
      intro used
      simp only [contextPiecesGo]
      split_ifs with h
      · exact ⟨0, rfl⟩
      · obtain ⟨k, hk⟩ := ih (used + (mkPart r).length)
        exact ⟨k + 1, by simp [List.take_succ_cons, hk]⟩

/-- A retrieved chunk whose block is exactly 2000 characters long:
`"[SOURCE: s]\n" ++ 1987·'a' ++ "\n"`. -/
def cexChunk : RChunk :=
  { text := String.mk (List.replicate 1987 'a'), score := 0,
    metadata := { id := none, source := some "s", title := none, chunk := none } }

lemma cexChunk_text_length : (String.mk (List.replicate 1987 'a')).length = 1987 := by
  show (List.replicate 1987 'a').length = 1987
  exact List.length_replicate 1987 'a'

lemma cexChunk_part_length : (mkPart cexChunk).length = 2000 := by
  have hsrc : pyOrStr (some "s") (pyOrStr none "unknown") = "s" := rfl
  have h1 : ("[SOURCE: " : String).length = 9 := rfl
  have h2 : ("s" : String).length = 1 := rfl
  have h3 : ("]\n" : String).length = 2 := rfl
  have h4 : ("\n" : String).length = 1 := rfl
  simp only [mkPart, cexChunk, pyOrStr_some_empty, hsrc, String.length_append,
    h1, h2, h3, h4, cexChunk_text_length]

lemma cexChunk_pieces : contextPiecesGo 4000 [cexChunk, cexChunk] 0 =
    [mkPart cexChunk, mkPart cexChunk] := by
  simp only [contextPiecesGo, cexChunk_part_length]
  norm_num

/-- C3, counterexample: two chunks whose blocks are 2000 characters each
both pass the `used`-counter budget check (`used` reaches exactly 4000),
but `"\n".join` inserts one more separator character, so the assembled
context string is 4001 characters long — it exceeds 4000. -/
theorem C3_counterexample :
    4000 < (format_context 4000 [cexChunk, cexChunk]).length := by
  have h4 : ("\n" : String).length = 1 := rfl
  unfold format_context
  rw [cexChunk_pieces, pyJoin_length, h4]
  simp only [List.map_cons, List.map_nil, List.sum_cons, List.sum_nil,
    List.length_cons, List.length_nil, cexChunk_part_length]
  norm_num

/-- C3, amended: the blocks kept by the Answer Composer's context
assembly are the blocks of a prefix of the chunk list, in order — whole
trailing chunks are dropped and no chunk's text is truncated mid-string —
and their summed length (the quantity the 4000-character budget check
actually bounds) never exceeds 4000; the assembled string itself, which
joins the kept blocks with one newline separator between consecutive
blocks, can exceed 4000 by at most the number of kept blocks minus one. -/
theorem C3_context_budget (chunks : List RChunk) :
    (∃ k, contextPiecesGo 4000 chunks 0 = (chunks.take k).map mkPart) ∧
    ((contextPiecesGo 4000 chunks 0).map String.length).sum ≤ 4000 ∧
    (format_context 4000 chunks).length ≤
      4000 + ((contextPiecesGo 4000 chunks 0).length - 1) := by
  have htotal : ((contextPiecesGo 4000 chunks 0).map String.length).sum ≤ 4000 := by
    have h := contextPiecesGo_total 4000 chunks 0
    simpa using h
  refine ⟨contextPiecesGo_take 4000 chunks 0, htotal, ?_⟩
  have h4 : ("\n" : String).length = 1 := rfl
  unfold format_context
  rw [pyJoin_length, h4]
  omega

end HealthQA
